import Mathlib

/-!
Verification development for the stl2vrml converter (stl2vrml.cpp).

The C++ source is shallowly embedded:
* `double` values are modelled by the type `D`: an exact rational, an
  infinity with a sign, or a NaN.  Rounding of decimal literals to binary
  doubles is not modelled (parsed values are kept as exact rationals);
  no property proved here depends on rounding.
* Files are byte lists (`List Nat`).  `File::ReadLine` (simplefile.h,
  lines 91-109) is embedded byte by byte, `readAny` flag included: with
  `skipBlankLines = true`, a blank line containing no carriage return
  that is reached while `readAny` is still unset makes the call return
  false (the end-of-input signal) instead of skipping the line, and
  reaching end of input with `readAny` set repeats the do-while loop
  forever.  A non-terminating run is represented by `none`, so the
  reader functions and the conversion driver return `Option (Except ..)`
  values: `none` for an input on which the source program does not
  terminate, `some (.error e)` for a thrown string, `some (.ok x)` for
  a normal result.
* Writes always succeed (the write-error path is out of scope here), so
  the VRML writer is a pure state transformer; the text written by each
  `Printf` is recorded in order in `WState.out`.
* Loops of the source that are not structurally recursive are embedded
  with an explicit fuel argument; every exported wrapper supplies fuel
  strictly larger than a bound that provably decreases at each
  iteration, so the fuel-exhausted branch is unreachable from the
  wrappers (this is proved, not assumed, via the `*_irrel` lemmas).
-/

/-- Model of a C `double`: an exact rational, a signed infinity
(`true` = negative), or a NaN. -/
inductive D where
  | fin : ℚ → D
  | inf : Bool → D
  | nan : D
deriving DecidableEq, Repr

/-- Rational addition, written with `mkRat` because `Rat.add` is
`@[irreducible]` in this toolchain and would block kernel evaluation of
the embedding; `qAdd_eq` below proves it equal to `+`. -/
def qAdd (a b : ℚ) : ℚ := mkRat (a.num * b.den + b.num * a.den) (a.den * b.den)

/-- Rational subtraction via `mkRat` (see `qAdd`); equals `-` by
`qSub_eq`. -/
def qSub (a b : ℚ) : ℚ := mkRat (a.num * b.den - b.num * a.den) (a.den * b.den)

/-- Rational halving via `mkRat` (see `qAdd`); equals `· / 2` by
`qHalf_eq`. -/
def qHalf (a : ℚ) : ℚ := mkRat a.num (a.den * 2)

/-- Embeds the C comparison `d == 0.` (false on NaN and infinities). -/
def D.eqZero : D → Bool
  | .fin q => q == 0
  | _ => false

/-- Embeds `_isnan`. -/
def D.isNanB : D → Bool
  | .nan => true
  | _ => false

/-- Embeds `_finite` (false on NaN and on infinities). -/
def D.isFiniteB : D → Bool
  | .fin _ => true
  | _ => false

/-- Embeds `<` on doubles (any comparison with NaN is false). -/
def D.ltb : D → D → Bool
  | .nan, _ => false
  | _, .nan => false
  | .inf true, .inf true => false
  | .inf true, _ => true
  | .inf false, _ => false
  | .fin _, .inf false => true
  | .fin _, .inf true => false
  | .fin a, .fin b => decide (a < b)

/-- Embeds `+` on doubles (exact on finite values; overflow to infinity
is not modelled for arithmetic, only for parsing). -/
def D.add : D → D → D
  | .nan, _ => .nan
  | _, .nan => .nan
  | .inf s, .inf t => if s == t then .inf s else .nan
  | .inf s, .fin _ => .inf s
  | .fin _, .inf t => .inf t
  | .fin a, .fin b => .fin (qAdd a b)

/-- Embeds binary `-` on doubles. -/
def D.sub : D → D → D
  | .nan, _ => .nan
  | _, .nan => .nan
  | .inf s, .inf t => if s == t then .nan else .inf s
  | .inf s, .fin _ => .inf s
  | .fin _, .inf t => .inf (!t)
  | .fin a, .fin b => .fin (qSub a b)

/-- Embeds division by the constant `2.`. -/
def D.half : D → D
  | .fin a => .fin (qHalf a)
  | .inf s => .inf s
  | .nan => .nan

/-- Embeds `std::max` on doubles: `(a < b) ? b : a`. -/
def D.maxD (a b : D) : D := if D.ltb a b then b else a

/-- Simple container for a 3D coordinate (struct Point, stl2vrml.cpp). -/
structure Point where
  x : D
  y : D
  z : D
deriving DecidableEq, Repr

/-- The six characters accepted by `isspace` in the C locale. -/
def isSpaceChar (c : Char) : Bool :=
  c == ' ' || c == '\t' || c == '\n' || c == '\r' || c == '\x0b' || c == '\x0c'

/-- A field-separator character of `StringFields`: whitespace, comma or
semicolon. -/
def sepChar (c : Char) : Bool :=
  isSpaceChar c || c == ',' || c == ';'

/-- Consumes at most one leading comma or semicolon (stl2vrml.cpp line
95; at the end of the string nothing is consumed). -/
def sfDropPunct : List Char → List Char
  | [] => []
  | c :: r => if c == ',' || c == ';' then r else c :: r

/-- Separator skipping done by one iteration of `StringFields`
(stl2vrml.cpp lines 94-96): skip whitespace, consume at most one comma
or semicolon, skip whitespace again. -/
def sfSkip (l : List Char) : List Char :=
  (sfDropPunct (l.dropWhile isSpaceChar)).dropWhile isSpaceChar

/-- One iteration of `StringFields` (stl2vrml.cpp lines 93-99): after
`sfSkip`, the field is the maximal run of non-separator characters
(possibly empty), and the rest is what follows it. -/
def sfStep (l : List Char) : List Char × List Char :=
  ((sfSkip l).takeWhile (fun c => !(sepChar c)),
   (sfSkip l).dropWhile (fun c => !(sepChar c)))

/-- Loop of `StringFields` (stl2vrml.cpp, lines 91-100): while input
remains, push one field per iteration.  Each iteration on a non-empty
remainder consumes at least one character (`sfStep_rest_lt` below), so
the fuel supplied by the wrapper is never exhausted. -/
def StringFieldsGo : Nat → List Char → List String
  | 0, _ => []
  | _, [] => []
  | Nat.succ fuel, l =>
    String.mk (sfStep l).1 :: StringFieldsGo fuel (sfStep l).2

/-- Function to split a string into fields delimited by spaces, commas,
and/or semicolons (`StringFields`, stl2vrml.cpp lines 87-103). -/
def StringFields (s : String) : List String :=
  StringFieldsGo (s.data.length + 1) s.data

/-- Loop body of the specification-side tokenizer `SpecTokens`. -/
def SpecTokensGo : Nat → List Char → List String
  | 0, _ => []
  | Nat.succ fuel, l =>
    match l.dropWhile sepChar with
    | [] => []
    | c :: r =>
      String.mk ((c :: r).takeWhile (fun d => !(sepChar d))) ::
        SpecTokensGo fuel ((c :: r).dropWhile (fun d => !(sepChar d)))

/-- Modelled from the spec's words (section 4.1), for comparison with the
source function `StringFields`: the ordered sequence of the maximal
non-empty runs of characters that are not whitespace, comma or
semicolon. -/
def SpecTokens (s : String) : List String :=
  SpecTokensGo (s.data.length + 1) s.data

/-- Accumulating decimal-digit parser used by the `atof` model.  Returns
the accumulated value, the number of digits consumed, and the rest. -/
def parseDigitsGo (acc n : Nat) : List Char → Nat × Nat × List Char
  | [] => (acc, n, [])
  | c :: cs =>
    if c.isDigit then parseDigitsGo (acc * 10 + (c.toNat - '0'.toNat)) (n + 1) cs
    else (acc, n, c :: cs)

/-- True when the lowercase pattern is a case-insensitive head of the
input character list. -/
def matchCI : List Char → List Char → Bool
  | [], _ => true
  | _ :: _, [] => false
  | p :: ps, c :: cs => (c.toLower == p) && matchCI ps cs

/-- Largest finite double, `(2 ^ 53 - 1) * 2 ^ 971`, as an exact
rational.  Written as an integer literal because evaluating the power
tower in the kernel recurses 971 levels deep; `dblMaxQ_eq` below checks
the literal against the formula. -/
def dblMaxQ : ℚ :=
  ((179769313486231570814527423731704356798070567525844996598917476803157260780028538760589558632766878171540458953514382464234321326889464182768467546703537516986049910576551282076245490090389328944075868508455133942304583236903222948165808559332123348274797826204144723168738177180919299881250404026184124858368 : Int) : ℚ)

/-- Core of the `atof` model, after leading whitespace has been skipped:
optional sign; "inf"/"nan" (case-insensitively) give the infinity or
NaN; otherwise a decimal significand with optional fraction and optional
exponent.  No digits at all yields 0 (as C `atof` does on no
conversion).  Values are exact rationals; a magnitude beyond the largest
finite double becomes the signed infinity.  C99 hex floats and
decimal-to-binary rounding are not modelled; no claim proved below
depends on them. -/
def atofVal (l : List Char) : D :=
  let sl : Bool × List Char := match l with
    | c :: r =>
      if c == '-' then (true, r)
      else if c == '+' then (false, r) else (false, l)
    | [] => (false, [])
  let neg := sl.1
  let l1 := sl.2
  if matchCI ['i', 'n', 'f'] l1 then D.inf neg
  else if matchCI ['n', 'a', 'n'] l1 then D.nan
  else
    let p1 := parseDigitsGo 0 0 l1
    let p2 : Nat × Nat × List Char := match p1.2.2 with
      | '.' :: r => parseDigitsGo 0 0 r
      | _ => (0, 0, p1.2.2)
    if p1.2.1 + p2.2.1 = 0 then D.fin 0
    else
      let e : Int := match p2.2.2 with
        | c :: r3 =>
          if c == 'e' || c == 'E' then
            match r3 with
            | '-' :: r4 =>
              let pe := parseDigitsGo 0 0 r4
              if pe.2.1 = 0 then 0 else -(pe.1 : Int)
            | '+' :: r4 =>
              let pe := parseDigitsGo 0 0 r4
              if pe.2.1 = 0 then 0 else (pe.1 : Int)
            | r4 =>
              let pe := parseDigitsGo 0 0 r4
              if pe.2.1 = 0 then 0 else (pe.1 : Int)
          else 0
        | [] => 0
      let sigNum : Int := (p1.1 : Int) * (10 : Int) ^ p2.2.1 + (p2.1 : Int)
      let mag : ℚ := Rat.divInt (sigNum * (10 : Int) ^ e.toNat)
        ((10 : Int) ^ p2.2.1 * (10 : Int) ^ ((-e).toNat))
      if dblMaxQ < mag ∨ mag < -dblMaxQ then D.inf neg
      else D.fin (if neg then -mag else mag)

/-- Model of C `atof`: skip leading whitespace, then parse as in
`atofVal`. -/
def atof (s : String) : D :=
  atofVal (s.data.dropWhile isSpaceChar)

/-- Newline-free textual rendering of an exact rational, standing in for
`printf` number formatting.  The exact digits of `%G`/`%.15G` are not
modelled; the properties proved below depend only on the rendering
containing no carriage return or line feed. -/
def fmtQ (q : ℚ) : String :=
  (if q < 0 then "-" else "") ++ toString q.num.natAbs ++
    (if q.den = 1 then "" else "/" ++ toString q.den)

/-- Rendering of a double value by `printf` `%G` or `%.15G` (see
`fmtQ`). -/
def fmtG : D → String
  | .fin q => fmtQ q
  | .inf s => if s then "-INF" else "INF"
  | .nan => "NAN"

/-- State of the VRML writer (class VrmlWriter).  `out` records, in
order, the text written by each group of `Printf` calls; `pending` is
the member `m_triangles` (points of triangles not yet written); `nodes`
is a specification-side record of each flushed batch of points, one
entry per Shape/IndexedFaceSet node emitted into `out`. -/
structure WState where
  out : List String
  pending : List Point
  nodes : List (List Point)
deriving DecidableEq, Repr

/-- A freshly constructed writer: nothing written, empty batch. -/
def initWState : WState := ⟨[], [], []⟩

namespace VrmlWriter

/-- Writes the beginning portion of the WRL file
(VrmlWriter::WriteStartOfWrl, stl2vrml.cpp lines 120-127). -/
def WriteStartOfWrl (w : WState) : WState :=
  { w with out := w.out ++ ["#VRML V2.0 utf8\r\n# Model converted by stl2vrml.\r\n"] }

/-- Lines of the coordinate list of an IndexedFaceSet, one line per
point, a comma on all but the last line
(VrmlWriter::WriteCoordListToWrl, lines 192-215). -/
def WriteCoordListToWrl (points : List Point) : List String :=
  points.enum.map (fun ip =>
    "        " ++ fmtG ip.2.x ++ " " ++ fmtG ip.2.y ++ " " ++ fmtG ip.2.z ++
      (if ip.1 < points.length - 1 then ", " else "") ++ "\r\n")

/-- Lines of the coordinate-index list of an IndexedFaceSet, one line
per triangle: the three indexes `3t, 3t+1, 3t+2`, a `-1` terminator,
and a comma on all but the last line
(VrmlWriter::WriteCoordIndexesToWrl, lines 220-246). -/
def WriteCoordIndexesToWrl (numTriangles : Nat) : List String :=
  (List.range numTriangles).map (fun t =>
    "      " ++ toString (t * 3) ++ ", " ++ toString (t * 3 + 1) ++ ", " ++
      toString (t * 3 + 2) ++ ", " ++ "-1" ++
      (if t < numTriangles - 1 then "," else "") ++ "\r\n")

/-- Writes a batch of points as one Shape node with an IndexedFaceSet
(VrmlWriter::WriteFacetsToWrl, lines 252-290).  A batch of fewer than
three points writes nothing. -/
def WriteFacetsToWrl (w : WState) (points : List Point) : WState :=
  let numTriangles := points.length / 3
  if numTriangles < 1 then w
  else
    { w with
      out := w.out ++
        ["\r\nShape \x7b\r\n  appearance Appearance \x7b\r\n    material Material \x7b\r\n      diffuseColor 0.8 0.8 0.8\r\n    \x7d\r\n  \x7d\r\n  geometry IndexedFaceSet \x7b\r\n    coord Coordinate \x7b\r\n      point [\r\n"] ++
        WriteCoordListToWrl points ++
        ["      ]\r\n    \x7d\r\n    coordIndex [\r\n"] ++
        WriteCoordIndexesToWrl numTriangles ++
        ["    ]\r\n  \x7d\r\n\x7d\r\n"],
      nodes := w.nodes ++ [points] }

/-- Accepts one triangle's points into the pending batch; once the
batch holds at least 3000 points it is written as one face-set node and
cleared (VrmlWriter::WriteFacetToWrl, lines 136-149). -/
def WriteFacetToWrl (w : WState) (coords : List Point) : WState :=
  let w1 := { w with pending := w.pending ++ coords }
  if 3000 ≤ w1.pending.length then
    { WriteFacetsToWrl w1 w1.pending with pending := [] }
  else w1

/-- Writes the remainder of the WRL file: a final flush of any
non-empty pending batch, then the Viewpoint, Background and
NavigationInfo nodes (VrmlWriter::WriteEndOfWrl, lines 156-185).  As in
the source, the pending batch is not cleared here, and the `position`
line ends with a bare line feed. -/
def WriteEndOfWrl (w : WState) (emin emax : Point) : WState :=
  let w1 := if w.pending.isEmpty then w else WriteFacetsToWrl w w.pending
  let px := D.add emin.x (D.half (D.sub emax.x emin.x))
  let py := D.add emin.y (D.half (D.sub emax.y emin.y))
  let pz := D.add (D.add emin.z (D.half (D.sub emax.z emin.z)))
              (D.maxD (D.sub emax.x emin.x) (D.sub emax.y emin.y))
  { w1 with out := w1.out ++
      ["\r\nViewpoint \x7b\r\n  description \"View_1\"\r\n  orientation 1 0 0 0\r\n",
       "  position " ++ fmtG px ++ " " ++ fmtG py ++ " " ++ fmtG pz ++ "\n",
       "\x7d\r\n",
       "Background \x7b skyColor 0.4 0.4 0.4 \x7d\r\n",
       "NavigationInfo \x7b type [ \"EXAMINE\" \"ANY\" ] \x7d\r\n\r\n"] }

end VrmlWriter

/-- Feeds a list of facets to the writer in order, as the conversion
loop of `ConvertStlToWrl` does. -/
def feedFacets (w : WState) : List (List Point) → WState
  | [] => w
  | f :: fs => feedFacets (VrmlWriter.WriteFacetToWrl w f) fs

/-- Number of triangle-index triples (`index1 index2 index3 -1` lines)
across all emitted geometry nodes: each flushed batch `b` contributes
`(WriteCoordIndexesToWrl (b.length / 3)).length = b.length / 3`
lines. -/
def totalIndexTriples (w : WState) : Nat :=
  (w.nodes.map (fun b => b.length / 3)).sum

/-- The full text written so far. -/
def outText (w : WState) : String := String.join w.out

/-- True when every line feed in the character list is immediately
preceded by a carriage return (CRLF line endings throughout). -/
def crlfOnly : List Char → Bool
  | [] => true
  | '\r' :: '\n' :: rest => crlfOnly rest
  | '\n' :: _ => false
  | _ :: rest => crlfOnly rest

/-- Error values: the strings thrown by the C++ source. -/
abbrev Err := String

deriving instance DecidableEq for Except

/-- Embeds `File::Read` of `n` bytes at position `pos`: the bytes when
the file is long enough, failure on a short read. -/
def ReadBytes (bytes : List Nat) (pos n : Nat) : Option (List Nat) :=
  if pos + n ≤ bytes.length then some ((bytes.drop pos).take n) else none

/-- Little-endian 16-bit value of the first two bytes. -/
def leU16 (b : List Nat) : Nat := b.getD 0 0 + 256 * b.getD 1 0

/-- Little-endian 32-bit value of the first four bytes. -/
def leU32 (b : List Nat) : Nat :=
  b.getD 0 0 + 256 * b.getD 1 0 + 65536 * b.getD 2 0 + 16777216 * b.getD 3 0

/-- IEEE 754 single-precision value of four little-endian bytes, as a
`D`. -/
def decodeF32 (b : List Nat) : D :=
  let bits : Nat := leU32 b
  let sign : Nat := bits / 2 ^ 31
  let e : Nat := (bits / 2 ^ 23) % 256
  let frac : Nat := bits % 2 ^ 23
  if e = 255 then (if frac = 0 then D.inf (sign == 1) else D.nan)
  else if e = 0 then
    D.fin (Rat.divInt ((if sign == 1 then (-1 : Int) else 1) * (frac : Int)) ((2 : Int) ^ 149))
  else
    D.fin (Rat.divInt ((if sign == 1 then (-1 : Int) else 1) * ((2 ^ 23 + frac : Nat) : Int) *
      (2 : Int) ^ (((e : Int) - 150).toNat)) ((2 : Int) ^ (((150 : Int) - (e : Int)).toNat)))

/-- The lines of a byte file as the specification's wording describes
them: line feeds end lines, carriage returns are stripped, other bytes
become characters.  Modelled from the spec's words and used only to
state claim properties ("the first non-blank line of the input", "the
facet lines of the input"); the program's own line reading is
`ReadLine` below. -/
def linesOfBytesGo : List Nat → List Char → List String
  | [], acc => [String.mk acc.reverse]
  | b :: bs, acc =>
    if b = 10 then String.mk acc.reverse :: linesOfBytesGo bs []
    else if b = 13 then linesOfBytesGo bs acc
    else linesOfBytesGo bs (Char.ofNat b :: acc)

/-- Text lines of a byte list (see `linesOfBytesGo`). -/
def linesOfBytes (bytes : List Nat) : List String := linesOfBytesGo bytes []

/-- Fueled embedding of `File::ReadLine` (simplefile.h lines 91-109).
One recursion step is one execution of the do-while body: the inner
while loop reads bytes until end of input or a line feed, its body runs
once per byte read that is not a line feed (`line`), each such byte
sets `readAny`, carriage returns are dropped from the text, and a
terminating line feed is consumed; the loop repeats while
`skipBlankLines && text.empty() && readAny`.  The result is the
function's boolean return value, the line text, and the remaining
bytes.  `none` is returned when the fuel runs out, which the wrapper's
fuel choice reserves for the inputs on which the source's do-while loop
never exits (end of input reached with `readAny` set while skipping,
see `ReadLineGo_nil_diverges` and `ReadLineGo_irrel`). -/
def ReadLineGo : Nat → List Nat → Bool → Bool → Option (Bool × String × List Nat)
  | 0, _, _, _ => none
  | Nat.succ fuel, bs, skip, readAny =>
    let line := bs.takeWhile (fun b => !(b == 10))
    let text := String.mk ((line.filter (fun b => !(b == 13))).map Char.ofNat)
    let rest := (bs.dropWhile (fun b => !(b == 10))).tail
    let readAny2 := readAny || !line.isEmpty
    if skip && (text == "") && readAny2 then
      ReadLineGo fuel rest skip readAny2
    else
      some (readAny2, text, rest)

/-- `File::ReadLine` with `skipBlankLines = true` (the only form the
STL reader calls), from the current byte position.  Every terminating
run of the source loop takes at most `bs.length + 1` iterations, since
each repeat consumes at least one byte except at end of input, where
the loop either exits or repeats forever. -/
def ReadLine (bs : List Nat) : Option (Bool × String × List Nat) :=
  ReadLineGo (bs.length + 1) bs true false

/-- First character of a C++ `std::string`, where indexing an empty
string at 0 yields the null character. -/
def firstChar (s : String) : Char := s.data.headD (Char.ofNat 0)

/-- Reader state (class StlReader): after the header was read, the
reader is either in binary mode (file bytes, current read position,
current and total facet counters) or in ASCII mode (the bytes not yet
consumed by `ReadLine`). -/
inductive RState where
  | binary (bytes : List Nat) (pos cur total : Nat)
  | ascii (bs : List Nat)
deriving DecidableEq, Repr

namespace StlReader

/-- Reads the header of a binary STL: skip the 80-byte preamble (a seek,
which always succeeds), read the 4-byte little-endian facet count, and
require it to be at least 1 (StlReader::ReadHeaderFromBinaryStl, lines
378-396). -/
def ReadHeaderFromBinaryStl (bytes : List Nat) : Except Err Nat :=
  match ReadBytes bytes 80 4 with
  | none => .error "Failed reading facet count from binary STL file."
  | some cb =>
    let facets := leU32 cb
    if facets < 1 then .error "Facet count in file header is not valid."
    else .ok facets

/-- Returns true if the file appears to be a binary STL: the binary
header reads successfully, the facet count is at least 1, and the file
length equals `80 + 4 + numFacets * 50`, where 50 is
`sizeof(BinaryStlRecord)` under `pack(1)` -- twelve 4-byte floats plus
one 2-byte field (StlReader::IsBinaryStl, lines 428-450). -/
def IsBinaryStl (bytes : List Nat) : Bool :=
  match ReadHeaderFromBinaryStl bytes with
  | .error _ => false
  | .ok numFacets =>
    if numFacets < 1 then false
    else bytes.length == 80 + 4 + numFacets * 50

/-- Reads the header of an ASCII STL (StlReader::ReadHeaderFromAsciiStl,
lines 402-423): seek to the start, call `ReadLine`, throw the bad-STL
error on a false return, tokenize, require the first field to be
"solid".  Returns the bytes not yet consumed. -/
def ReadHeaderFromAsciiStl (bytes : List Nat) : Option (Except Err (List Nat)) :=
  match ReadLine bytes with
  | none => none
  | some (false, _, _) => some (.error "File does not appear to be in STL format.\r\n")
  | some (true, text, rest) =>
    match StringFields text with
    | [] => some (.error "File does not appear to be in STL format.\r\n")
    | f0 :: _ =>
      if f0 == "solid" then some (.ok rest)
      else some
        (.error "File does not appear to be an ASCII STL file.  Expected keyword \"solid\".\n")

/-- Reads and validates the STL header, fixing the reader's mode
(StlReader::ReadHeaderFromStl, lines 325-333).  In binary mode the data
position starts right after the 84 header bytes. -/
def ReadHeaderFromStl (bytes : List Nat) : Option (Except Err RState) :=
  if IsBinaryStl bytes then
    some (match ReadHeaderFromBinaryStl bytes with
          | .error e => .error e
          | .ok numFacets => .ok (.binary bytes 84 0 numFacets))
  else
    match ReadHeaderFromAsciiStl bytes with
    | none => none
    | some (.error e) => some (.error e)
    | some (.ok rest) => some (.ok (.ascii rest))

/-- Reads one vertex line: a false `ReadLine` return throws the
unexpected-end error; the line must tokenize into at least four fields,
the first being "vertex"; the next three are converted with `atof` and
rejected if a value is exactly zero while its token does not start with
the character '0', or is NaN, or is not finite
(StlReader::ReadVertexFromAsciiStl, lines 457-486). -/
def ReadVertexFromAsciiStl (bs : List Nat) : Option (Except Err (Point × List Nat)) :=
  match ReadLine bs with
  | none => none
  | some (false, _, _) =>
    some (.error "Unexpected end of file while looking for \"vertex\".\n")
  | some (true, text, rest) =>
    match StringFields text with
    | f0 :: f1 :: f2 :: f3 :: _ =>
      if f0 == "vertex" then
        let x := atof f1
        let y := atof f2
        let z := atof f3
        if (D.eqZero x && !(firstChar f1 == '0')) ||
           (D.eqZero y && !(firstChar f2 == '0')) ||
           (D.eqZero z && !(firstChar f3 == '0')) ||
           D.isNanB x || D.isNanB y || D.isNanB z ||
           !(D.isFiniteB x) || !(D.isFiniteB y) || !(D.isFiniteB z) then
          some (.error "One or more invalid coordinate values after \"vertex\".\n")
        else some (.ok (⟨x, y, z⟩, rest))
      else some (.error "Missing or malformed vertex.\n")
    | _ => some (.error "Malformed vertex line.  Expected x, y, and z coordinates.\n")

/-- The end-of-solid test of `ReadFacetFromAsciiStl` (stl2vrml.cpp line
515): first field "endsolid", or "end" followed by "solid". -/
def isEndSolidFields (f0 : String) (ftail : List String) : Bool :=
  f0 == "endsolid" ||
    (match ftail with | f1 :: _ => f0 == "end" && f1 == "solid" | [] => false)

/-- The outer-loop test (stl2vrml.cpp lines 529-530): fields starting
with "outerloop", or with "outer" then "loop". -/
def isOuterLoopFields (fs : List String) : Bool :=
  (match fs with | g0 :: _ => g0 == "outerloop" | [] => false) ||
    (match fs with | g0 :: g1 :: _ => g0 == "outer" && g1 == "loop" | _ => false)

/-- The end-loop test (stl2vrml.cpp lines 547-548). -/
def isEndLoopFields (fs : List String) : Bool :=
  (match fs with | g0 :: _ => g0 == "endloop" | [] => false) ||
    (match fs with | g0 :: g1 :: _ => g0 == "end" && g1 == "loop" | _ => false)

/-- The end-facet test (stl2vrml.cpp lines 555-556). -/
def isEndFacetFields (fs : List String) : Bool :=
  (match fs with | g0 :: _ => g0 == "endfacet" | [] => false) ||
    (match fs with | g0 :: g1 :: _ => g0 == "end" && g1 == "facet" | _ => false)

/-- Reads one facet of an ASCII STL (StlReader::ReadFacetFromAsciiStl,
lines 503-565).  `ok none` is the clean end of the facet sequence: a
false first `ReadLine` return, an empty field list, or an end-solid
line.  As in the source, a false line read where the "outer loop" line
was expected (lines 524-527) also yields `ok none` rather than an
error, while the same check at the end-loop and end-facet lines throws
the unexpected-end error. -/
def ReadFacetFromAsciiStl (bs : List Nat) :
    Option (Except Err (Option (List Point × List Nat))) :=
  match ReadLine bs with
  | none => none
  | some (false, _, _) => some (.ok none)
  | some (true, text, r1) =>
    match StringFields text with
    | [] => some (.ok none)
    | f0 :: ftail =>
      if isEndSolidFields f0 ftail then
        some (.ok none)
      else if f0 == "facet" then
        match ReadLine r1 with
        | none => none
        | some (false, _, _) => some (.ok none)
        | some (true, t2, r2) =>
          if !(isOuterLoopFields (StringFields t2)) then
            some (.error "A facet is missing its outer loop.\n")
          else
            match ReadVertexFromAsciiStl r2 with
            | none => none
            | some (.error e) => some (.error e)
            | some (.ok (p1, r3)) =>
              match ReadVertexFromAsciiStl r3 with
              | none => none
              | some (.error e) => some (.error e)
              | some (.ok (p2, r4)) =>
                match ReadVertexFromAsciiStl r4 with
                | none => none
                | some (.error e) => some (.error e)
                | some (.ok (p3, r5)) =>
                  match ReadLine r5 with
                  | none => none
                  | some (false, _, _) =>
                    some (.error "Unexpected end of file while reading a facet.\n")
                  | some (true, t6, r6) =>
                    if !(isEndLoopFields (StringFields t6)) then
                      some (.error "Expected \"end loop\" after vertex.\n")
                    else
                      match ReadLine r6 with
                      | none => none
                      | some (false, _, _) =>
                        some (.error "Unexpected end of file while reading a facet.\n")
                      | some (true, t7, r7) =>
                        if !(isEndFacetFields (StringFields t7)) then
                          some (.error "Expected \"end facet\" after \"end loop\".\n")
                        else some (.ok (some ([p1, p2, p3], r7)))
      else some (.error "Expected \"facet\" or \"end solid\"\n")

/-- Reads one facet of a binary STL (StlReader::ReadFacetFromBinaryStl,
lines 572-598): end of sequence once all facets were read; otherwise
one 50-byte record whose trailing 16-bit attribute field must be zero;
the record's nine vertex floats (floats 3 to 11) become the three
points, with no validation of the float values. -/
def ReadFacetFromBinaryStl (bytes : List Nat) (pos cur total : Nat) :
    Except Err (Option (List Point × RState)) :=
  if total ≤ cur then .ok none
  else
    match ReadBytes bytes pos 50 with
    | none => .error "Failed reading facet record from binary STL file."
    | some recBytes =>
      if leU16 (recBytes.drop 48) ≠ 0 then
        .error "Invalid attribute size in binary STL file."
      else
        let f := fun i => decodeF32 ((recBytes.drop (4 * i)).take 4)
        .ok (some ([⟨f 3, f 4, f 5⟩, ⟨f 6, f 7, f 8⟩, ⟨f 9, f 10, f 11⟩],
                   .binary bytes (pos + 50) (cur + 1) total))

/-- Reads the next facet in whichever mode the header fixed
(StlReader::ReadFacetFromStl, lines 340-346).  The binary path never
blocks, so its result is lifted directly. -/
def ReadFacetFromStl (s : RState) : Option (Except Err (Option (List Point × RState))) :=
  match s with
  | .binary bytes pos cur total => some (ReadFacetFromBinaryStl bytes pos cur total)
  | .ascii bs =>
    match ReadFacetFromAsciiStl bs with
    | none => none
    | some (.error e) => some (.error e)
    | some (.ok none) => some (.ok none)
    | some (.ok (some (coords, rest))) => some (.ok (some (coords, .ascii rest)))

end StlReader

/-- Fuel bound of the read loop: facets left in binary mode, bytes left
in ASCII mode.  Every successful ASCII facet read consumes at least one
byte, so `measureR + 1` loop iterations are enough for every
terminating run. -/
def measureR : RState → Nat
  | .binary _ _ cur total => total - cur
  | .ascii bs => bs.length

/-- Fueled reading of all remaining facets, in order.  `none` when a
line read diverges or the fuel runs out. -/
def ReadAllFacetsGo : Nat → RState → Option (Except Err (List (List Point)))
  | 0, _ => none
  | Nat.succ fuel, s =>
    match StlReader.ReadFacetFromStl s with
    | none => none
    | some (.error e) => some (.error e)
    | some (.ok none) => some (.ok [])
    | some (.ok (some (coords, s2))) =>
      match ReadAllFacetsGo fuel s2 with
      | none => none
      | some (.error e) => some (.error e)
      | some (.ok fs) => some (.ok (coords :: fs))

/-- All remaining facets of a reader state, in order. -/
def ReadAllFacets (s : RState) : Option (Except Err (List (List Point))) :=
  ReadAllFacetsGo (measureR s + 1) s

/-- Expands the bounds to include the input point (UpdateMinMax,
stl2vrml.cpp lines 611-619). -/
def UpdateMinMax (input : Point) (emin emax : Point) : Point × Point :=
  (⟨if D.ltb input.x emin.x then input.x else emin.x,
    if D.ltb input.y emin.y then input.y else emin.y,
    if D.ltb input.z emin.z then input.z else emin.z⟩,
   ⟨if D.ltb emax.x input.x then input.x else emax.x,
    if D.ltb emax.y input.y then input.y else emax.y,
    if D.ltb emax.z input.z then input.z else emax.z⟩)

/-- Applies `UpdateMinMax` to each point of a facet, as the conversion
loop does. -/
def updateMinMaxAll (coords : List Point) (emin emax : Point) : Point × Point :=
  coords.foldl (fun mm p => UpdateMinMax p mm.1 mm.2) (emin, emax)

/-- Initial minimum bound: `DBL_MAX` in every component. -/
def initMin : Point := ⟨.fin dblMaxQ, .fin dblMaxQ, .fin dblMaxQ⟩

/-- Initial maximum bound: `-DBL_MAX` in every component. -/
def initMax : Point := ⟨.fin (-dblMaxQ), .fin (-dblMaxQ), .fin (-dblMaxQ)⟩

/-- Fueled conversion loop of `ConvertStlToWrl` (lines 642-654): read a
facet, feed it to the writer, fold its points into the bounds.  `none`
when a line read diverges or the fuel runs out. -/
def ConvertLoopGo : Nat → RState → WState → Point → Point →
    Option (Except Err (WState × Point × Point))
  | 0, _, _, _, _ => none
  | Nat.succ fuel, s, w, mn, mx =>
    match StlReader.ReadFacetFromStl s with
    | none => none
    | some (.error e) => some (.error e)
    | some (.ok none) => some (.ok (w, mn, mx))
    | some (.ok (some (coords, s2))) =>
      let w2 := VrmlWriter.WriteFacetToWrl w coords
      let mm := updateMinMaxAll coords mn mx
      ConvertLoopGo fuel s2 w2 mm.1 mm.2

/-- Converts a 3D model from STL to VRML (ConvertStlToWrl, stl2vrml.cpp
lines 625-659): read and validate the header, write the WRL start, feed
every facet to the writer while accumulating the bounds, then write the
WRL end. -/
def ConvertStlToWrl (bytes : List Nat) : Option (Except Err WState) :=
  match StlReader.ReadHeaderFromStl bytes with
  | none => none
  | some (.error e) => some (.error e)
  | some (.ok s) =>
    let w := VrmlWriter.WriteStartOfWrl initWState
    match ConvertLoopGo (measureR s + 1) s w initMin initMax with
    | none => none
    | some (.error e) => some (.error e)
    | some (.ok (w2, emin, emax)) => some (.ok (VrmlWriter.WriteEndOfWrl w2 emin emax))

/-- The float at index `i` of the 50-byte record read at position `pos`
(float 0-2: the normal; floats 3-11: the three vertices). -/
def recFloat (bytes : List Nat) (pos i : Nat) : D :=
  decodeF32 ((((bytes.drop pos).take 50).drop (4 * i)).take 4)

/-- Sum of the point counts of all flushed batches plus the pending
points: writer points are only moved, never lost, so feeding conserves
this quantity up to the points fed. -/
def sumPts (w : WState) : Nat :=
  (w.nodes.map List.length).sum + w.pending.length

/-- A sample point. -/
def p0 : Point := ⟨.fin 0, .fin 0, .fin 0⟩

/-- A sample triangle: one feed call of three points. -/
def tri : List Point := [p0, p0, p0]

/-- A one-facet ASCII STL input. -/
def demoAsciiText : String :=
  "solid demo\nfacet normal 0 0 1\nouter loop\nvertex 1 1 1\nvertex 2 1 1\nvertex 1 2 1\nend loop\nend facet\nendsolid demo\n"

/-- Byte contents of the one-facet ASCII STL input. -/
def demoAsciiBytes : List Nat := demoAsciiText.data.map Char.toNat

/-- An ASCII STL input that starts with one bare line-feed blank line;
its first non-blank line is "solid demo". -/
def leadingBlankText : String := "\nsolid demo\nendsolid demo\n"

/-- Byte contents of the leading-blank-line input. -/
def leadingBlankBytes : List Nat := leadingBlankText.data.map Char.toNat

/-- A two-facet ASCII STL input, line-feed line endings, with one blank
line between the two facet blocks. -/
def blankGapText : String :=
  "solid demo\nfacet normal 0 0 1\nouter loop\nvertex 1 1 1\nvertex 2 1 1\nvertex 1 2 1\nend loop\nend facet\n\nfacet normal 0 0 1\nouter loop\nvertex 1 1 1\nvertex 2 1 1\nvertex 1 2 1\nend loop\nend facet\nendsolid demo\n"

/-- Byte contents of the two-facet input with a blank line between the
facets. -/
def blankGapBytes : List Nat := blankGapText.data.map Char.toNat

/-- Byte contents of an ASCII input that ends right after a facet
line. -/
def facetOnlyBytes : List Nat := "facet normal 1 2 3\n".data.map Char.toNat

/-- Byte contents of a single malformed vertex line. -/
def vertexBadBytes : List Nat := "vertex 1.0 abc 3.0\n".data.map Char.toNat

/-- A minimal valid binary STL: 80-byte preamble, facet count 1, one
50-byte record of zeros (attribute field zero), total length 134. -/
def demoBinBytes : List Nat :=
  List.replicate 80 0 ++ [1, 0, 0, 0] ++ List.replicate 48 0 ++ [0, 0]

/-- One 50-byte binary facet record whose first vertex float (float 3,
bytes 12-15) is an IEEE 754 NaN (0x7FC00000), all other floats zero,
attribute field zero. -/
def nanRecBytes : List Nat :=
  List.replicate 12 0 ++ [0, 0, 192, 127] ++ List.replicate 32 0 ++ [0, 0]

/-! ## Tokenizer lemmas -/

theorem sep_of_space (c : Char) (h : isSpaceChar c = true) : sepChar c = true := by
  simp [sepChar, h]

theorem not_sep_parts (c : Char) (h : sepChar c = false) :
    isSpaceChar c = false ∧ (c == ',') = false ∧ (c == ';') = false := by
  cases h1 : isSpaceChar c <;> cases h2 : (c == ',') <;> cases h3 : (c == ';') <;>
    simp [sepChar, h1, h2, h3] at h ⊢

theorem sfDropPunct_length_le (l : List Char) : (sfDropPunct l).length ≤ l.length := by
  cases l with
  | nil => simp [sfDropPunct]
  | cons c r =>
    simp only [sfDropPunct]
    split
    · simp
    · simp

theorem sfSkip_length_le (l : List Char) : (sfSkip l).length ≤ l.length := by
  have h1 : (l.dropWhile isSpaceChar).length ≤ l.length := (List.dropWhile_sublist _).length_le
  have h2 := sfDropPunct_length_le (l.dropWhile isSpaceChar)
  have h3 : ((sfDropPunct (l.dropWhile isSpaceChar)).dropWhile isSpaceChar).length ≤
      (sfDropPunct (l.dropWhile isSpaceChar)).length := (List.dropWhile_sublist _).length_le
  unfold sfSkip
  omega

theorem sfSkip_le_of_sep (c : Char) (cs : List Char) (h : sepChar c = true) :
    (sfSkip (c :: cs)).length ≤ cs.length := by
  by_cases hs : isSpaceChar c = true
  · have hdrop : (c :: cs).dropWhile isSpaceChar = cs.dropWhile isSpaceChar := by
      simp [List.dropWhile_cons, hs]
    have h1 : (cs.dropWhile isSpaceChar).length ≤ cs.length := (List.dropWhile_sublist _).length_le
    have h2 := sfDropPunct_length_le (cs.dropWhile isSpaceChar)
    have h3 : ((sfDropPunct (cs.dropWhile isSpaceChar)).dropWhile isSpaceChar).length ≤
        (sfDropPunct (cs.dropWhile isSpaceChar)).length := (List.dropWhile_sublist _).length_le
    unfold sfSkip
    rw [hdrop]
    omega
  · have hc : (c == ',' || c == ';') = true := by
      unfold sepChar at h
      simp only [Bool.or_eq_true] at h ⊢
      rcases h with (h | h) | h
      · exact absurd h hs
      · exact Or.inl h
      · exact Or.inr h
    have hdrop : (c :: cs).dropWhile isSpaceChar = c :: cs := by
      simp [List.dropWhile_cons, hs]
    have hp : sfDropPunct (c :: cs) = cs := by simp [sfDropPunct, hc]
    have h3 : (cs.dropWhile isSpaceChar).length ≤ cs.length := (List.dropWhile_sublist _).length_le
    unfold sfSkip
    rw [hdrop, hp]
    omega

theorem sfSkip_of_not_sep (c : Char) (cs : List Char) (h : sepChar c = false) :
    sfSkip (c :: cs) = c :: cs := by
  obtain ⟨hs, hc1, hc2⟩ := not_sep_parts c h
  have hdrop : (c :: cs).dropWhile isSpaceChar = c :: cs := by
    simp [List.dropWhile_cons, hs]
  have hp : sfDropPunct (c :: cs) = c :: cs := by simp [sfDropPunct, hc1, hc2]
  unfold sfSkip
  rw [hdrop, hp, hdrop]

theorem sfStep_rest_lt (c : Char) (cs : List Char) :
    ((sfStep (c :: cs)).2).length < (c :: cs).length := by
  by_cases h : sepChar c = true
  · have h1 := sfSkip_le_of_sep c cs h
    have h2 : ((sfStep (c :: cs)).2).length ≤ (sfSkip (c :: cs)).length := by
      unfold sfStep
      exact (List.dropWhile_sublist _).length_le
    simp only [List.length_cons]
    omega
  · have hns : sepChar c = false := by revert h; cases sepChar c <;> simp
    have hskip := sfSkip_of_not_sep c cs hns
    have hrest : (sfStep (c :: cs)).2 = cs.dropWhile (fun d => !(sepChar d)) := by
      unfold sfStep
      rw [hskip]
      simp [List.dropWhile_cons, hns]
    rw [hrest]
    have h4 := (List.dropWhile_sublist (fun d => !(sepChar d)) (l := cs)).length_le
    simp only [List.length_cons]
    omega

theorem StringFieldsGo_irrel : ∀ (f1 f2 : Nat) (l : List Char), l.length < f1 →
    l.length < f2 → StringFieldsGo f1 l = StringFieldsGo f2 l := by
  intro f1
  induction f1 with
  | zero => intro f2 l h1 h2; omega
  | succ a ih =>
    intro f2 l h1 h2
    cases l with
    | nil =>
      cases f2 with
      | zero => omega
      | succ b => rfl
    | cons c cs =>
      cases f2 with
      | zero => omega
      | succ b =>
        show String.mk (sfStep (c :: cs)).1 :: StringFieldsGo a (sfStep (c :: cs)).2 =
          String.mk (sfStep (c :: cs)).1 :: StringFieldsGo b (sfStep (c :: cs)).2
        have hr := sfStep_rest_lt c cs
        simp only [List.length_cons] at h1 h2 hr
        congr 1
        exact ih b _ (by omega) (by omega)

theorem StringFieldsGo_cons (c : Char) (cs : List Char) :
    StringFieldsGo ((c :: cs).length + 1) (c :: cs) =
      String.mk (sfStep (c :: cs)).1 ::
        StringFieldsGo ((sfStep (c :: cs)).2.length + 1) (sfStep (c :: cs)).2 := by
  have hr := sfStep_rest_lt c cs
  show String.mk (sfStep (c :: cs)).1 :: StringFieldsGo ((c :: cs).length) (sfStep (c :: cs)).2 = _
  congr 1
  exact StringFieldsGo_irrel _ _ _ (by omega) (by omega)

theorem head_dropWhile_sep_false (p : Char → Bool) (l : List Char) (d : Char) (ds : List Char)
    (h : l.dropWhile p = d :: ds) : p d = false := by
  have h2 := List.head?_dropWhile_not p l
  rw [h] at h2
  simpa using h2

theorem SpecTokensGo_irrel : ∀ (f1 f2 : Nat) (l : List Char), l.length < f1 →
    l.length < f2 → SpecTokensGo f1 l = SpecTokensGo f2 l := by
  intro f1
  induction f1 with
  | zero => intro f2 l h1 h2; omega
  | succ a ih =>
    intro f2 l h1 h2
    cases f2 with
    | zero => omega
    | succ b =>
      simp only [SpecTokensGo]
      cases hd : l.dropWhile sepChar with
      | nil => rfl
      | cons d ds =>
        have hlen : ds.length + 1 ≤ l.length := by
          have h3 := (List.dropWhile_sublist sepChar (l := l)).length_le
          rw [hd] at h3
          simpa using h3
        have hdns : sepChar d = false := head_dropWhile_sep_false sepChar l d ds hd
        have hrw : (d :: ds).dropWhile (fun x => !(sepChar x)) =
            ds.dropWhile (fun x => !(sepChar x)) := by
          simp [List.dropWhile_cons, hdns]
        have hrest : ((d :: ds).dropWhile (fun x => !(sepChar x))).length ≤ ds.length := by
          rw [hrw]
          exact (List.dropWhile_sublist _).length_le
        show String.mk ((d :: ds).takeWhile (fun x => !(sepChar x))) ::
            SpecTokensGo a ((d :: ds).dropWhile (fun x => !(sepChar x))) =
          String.mk ((d :: ds).takeWhile (fun x => !(sepChar x))) ::
            SpecTokensGo b ((d :: ds).dropWhile (fun x => !(sepChar x)))
        congr 1
        exact ih b ((d :: ds).dropWhile (fun x => !(sepChar x))) (by omega) (by omega)

theorem SpecTokensGo_eq_nil (f : Nat) (l : List Char) (h : l.length < f)
    (hd : l.dropWhile sepChar = []) : SpecTokensGo f l = [] := by
  cases f with
  | zero => omega
  | succ a =>
    simp only [SpecTokensGo]
    rw [hd]

theorem SpecTokensGo_eq_cons (f : Nat) (l : List Char) (d : Char) (ds : List Char)
    (h : l.length < f) (hd : l.dropWhile sepChar = d :: ds) :
    SpecTokensGo f l =
      String.mk ((d :: ds).takeWhile (fun x => !(sepChar x))) ::
        SpecTokensGo (((d :: ds).dropWhile (fun x => !(sepChar x))).length + 1)
          ((d :: ds).dropWhile (fun x => !(sepChar x))) := by
  cases f with
  | zero => omega
  | succ a =>
    simp only [SpecTokensGo]
    rw [hd]
    have hlen : ds.length + 1 ≤ l.length := by
      have h3 := (List.dropWhile_sublist sepChar (l := l)).length_le
      rw [hd] at h3
      simpa using h3
    have hdns : sepChar d = false := head_dropWhile_sep_false sepChar l d ds hd
    have hrw : (d :: ds).dropWhile (fun x => !(sepChar x)) =
        ds.dropWhile (fun x => !(sepChar x)) := by
      simp [List.dropWhile_cons, hdns]
    have hrest : ((d :: ds).dropWhile (fun x => !(sepChar x))).length ≤ ds.length := by
      rw [hrw]
      exact (List.dropWhile_sublist _).length_le
    show String.mk ((d :: ds).takeWhile (fun x => !(sepChar x))) ::
        SpecTokensGo a ((d :: ds).dropWhile (fun x => !(sepChar x))) = _
    congr 1
    exact SpecTokensGo_irrel a (((d :: ds).dropWhile (fun x => !(sepChar x))).length + 1)
      ((d :: ds).dropWhile (fun x => !(sepChar x))) (by omega) (by omega)

theorem SpecTokensGo_congr_drop (f1 f2 : Nat) (l l2 : List Char) (h1 : l.length < f1)
    (h2 : l2.length < f2) (h : l.dropWhile sepChar = l2.dropWhile sepChar) :
    SpecTokensGo f1 l = SpecTokensGo f2 l2 := by
  cases hd : l.dropWhile sepChar with
  | nil =>
    rw [SpecTokensGo_eq_nil f1 l h1 hd, SpecTokensGo_eq_nil f2 l2 h2 (h.symm.trans hd)]
  | cons d ds =>
    rw [SpecTokensGo_eq_cons f1 l d ds h1 hd, SpecTokensGo_eq_cons f2 l2 d ds h2 (h.symm.trans hd)]

theorem dropWhile_append_sep (pre l : List Char) (h : ∀ x ∈ pre, sepChar x = true) :
    (pre ++ l).dropWhile sepChar = l.dropWhile sepChar := by
  induction pre with
  | nil => rfl
  | cons a as ihp =>
    rw [List.cons_append, List.dropWhile_cons]
    simp only [h a (List.mem_cons_self a as), if_true]
    exact ihp (fun x hx => h x (List.mem_cons_of_mem a hx))

theorem sfSkip_decomp (l : List Char) :
    ∃ pre, l = pre ++ sfSkip l ∧ ∀ x ∈ pre, sepChar x = true := by
  have e1 : l.takeWhile isSpaceChar ++ l.dropWhile isSpaceChar = l :=
    List.takeWhile_append_dropWhile _ _
  cases h1 : l.dropWhile isSpaceChar with
  | nil =>
    have hskip : sfSkip l = [] := by unfold sfSkip; rw [h1]; rfl
    refine ⟨l.takeWhile isSpaceChar, ?_, ?_⟩
    · rw [hskip, List.append_nil]
      conv_lhs => rw [← e1, h1]
      rw [List.append_nil]
    · exact fun x hx => sep_of_space x (List.mem_takeWhile_imp hx)
  | cons c r =>
    have hcspace : isSpaceChar c = false := head_dropWhile_sep_false isSpaceChar l c r h1
    by_cases hc : (c == ',' || c == ';') = true
    · have hskip : sfSkip l = r.dropWhile isSpaceChar := by
        unfold sfSkip
        rw [h1]
        simp [sfDropPunct, hc]
      have e2 : r.takeWhile isSpaceChar ++ r.dropWhile isSpaceChar = r :=
        List.takeWhile_append_dropWhile _ _
      refine ⟨l.takeWhile isSpaceChar ++ c :: r.takeWhile isSpaceChar, ?_, ?_⟩
      · rw [hskip, List.append_assoc, List.cons_append, e2, ← h1, e1]
      · intro x hx
        rcases List.mem_append.mp hx with hx1 | hx2
        · exact sep_of_space x (List.mem_takeWhile_imp hx1)
        · rcases List.mem_cons.mp hx2 with rfl | hx3
          · simp only [sepChar, Bool.or_assoc]
            rw [hc]
            simp
          · exact sep_of_space x (List.mem_takeWhile_imp hx3)
    · have hcf : (c == ',' || c == ';') = false := by
        revert hc; cases (c == ',' || c == ';') <;> simp
      have hskip : sfSkip l = c :: r := by
        unfold sfSkip
        rw [h1]
        have hp : sfDropPunct (c :: r) = c :: r := by simp [sfDropPunct, hcf]
        rw [hp]
        simp [List.dropWhile_cons, hcspace]
      refine ⟨l.takeWhile isSpaceChar, ?_, ?_⟩
      · rw [hskip, ← h1, e1]
      · exact fun x hx => sep_of_space x (List.mem_takeWhile_imp hx)

theorem sf_filter_spec_aux : ∀ (n : Nat) (l : List Char), l.length ≤ n →
    (StringFieldsGo (l.length + 1) l).filter (fun t => !(t == "")) =
      SpecTokensGo (l.length + 1) l := by
  intro n
  induction n with
  | zero =>
    intro l h
    have hnil : l = [] := List.length_eq_zero.mp (Nat.le_zero.mp h)
    subst hnil
    rfl
  | succ n ih =>
    intro l hl
    cases l with
    | nil => rfl
    | cons c cs =>
      rw [StringFieldsGo_cons]
      obtain ⟨pre, hdec, hsep⟩ := sfSkip_decomp (c :: cs)
      have hr := sfStep_rest_lt c cs
      have hdw : (c :: cs).dropWhile sepChar = (sfSkip (c :: cs)).dropWhile sepChar := by
        conv_lhs => rw [hdec]
        exact dropWhile_append_sep pre _ hsep
      by_cases hf : (sfStep (c :: cs)).1 = []
      · have hrest2 : (sfStep (c :: cs)).2 = sfSkip (c :: cs) := by
          unfold sfStep at hf ⊢
          cases hsk : sfSkip (c :: cs) with
          | nil => simp [hsk]
          | cons d ds =>
            rw [hsk] at hf
            rw [List.takeWhile_cons] at hf
            by_cases hd : (!(sepChar d)) = true
            · rw [if_pos hd] at hf
              cases hf
            · have hd2 : (!(sepChar d)) = false := by
                revert hd; cases (!(sepChar d)) <;> simp
              simp [List.dropWhile_cons, hd2]
        have hmk : ((String.mk (sfStep (c :: cs)).1 == "") = true) := by
          rw [hf]; rfl
        rw [List.filter_cons]
        simp only [hmk, Bool.not_true, Bool.false_eq_true, if_false]
        have hlen2 : (sfStep (c :: cs)).2.length ≤ n := by
          simp only [List.length_cons] at hr hl
          omega
        rw [ih _ hlen2]
        apply SpecTokensGo_congr_drop _ _ _ _ (by omega) (by omega)
        rw [hrest2, ← hdw]
      · obtain ⟨d, ds, hsk, hd⟩ : ∃ d ds, sfSkip (c :: cs) = d :: ds ∧ sepChar d = false := by
          cases hsk : sfSkip (c :: cs) with
          | nil =>
            exfalso
            apply hf
            unfold sfStep
            rw [hsk]
            rfl
          | cons d ds =>
            refine ⟨d, ds, rfl, ?_⟩
            by_contra hcon
            have hdt : sepChar d = true := by
              revert hcon; cases sepChar d <;> simp
            apply hf
            unfold sfStep
            rw [hsk, List.takeWhile_cons]
            simp [hdt]
        have hdw2 : (c :: cs).dropWhile sepChar = d :: ds := by
          rw [hdw, hsk, List.dropWhile_cons]
          simp [hd]
        rw [SpecTokensGo_eq_cons _ _ d ds (by omega) hdw2]
        have hmk : ((String.mk (sfStep (c :: cs)).1 == "") = false) := by
          rw [beq_eq_false_iff_ne]
          intro hcon
          apply hf
          have := String.ext_iff.mp hcon
          simpa using this
        rw [List.filter_cons]
        simp only [hmk, Bool.not_false, if_true]
        have hstep1 : (sfStep (c :: cs)).1 = (d :: ds).takeWhile (fun x => !(sepChar x)) := by
          unfold sfStep
          rw [hsk]
        have hstep2 : (sfStep (c :: cs)).2 = (d :: ds).dropWhile (fun x => !(sepChar x)) := by
          unfold sfStep
          rw [hsk]
        congr 1
        · rw [hstep1]
        · have hlen2 : (sfStep (c :: cs)).2.length ≤ n := by
            simp only [List.length_cons] at hr hl
            omega
          rw [ih _ hlen2, hstep2]

/-! ## Writer lemmas -/

theorem wfs_pending (w : WState) (points : List Point) :
    (VrmlWriter.WriteFacetsToWrl w points).pending = w.pending := by
  by_cases h : points.length / 3 < 1 <;> simp [VrmlWriter.WriteFacetsToWrl, h]

theorem wfs_nodes (w : WState) (points : List Point) (h : 1 ≤ points.length / 3) :
    (VrmlWriter.WriteFacetsToWrl w points).nodes = w.nodes ++ [points] := by
  have h2 : ¬ points.length / 3 < 1 := by omega
  simp [VrmlWriter.WriteFacetsToWrl, h2]

theorem wft_noflush (w : WState) (coords : List Point)
    (h : w.pending.length + coords.length < 3000) :
    VrmlWriter.WriteFacetToWrl w coords = { w with pending := w.pending ++ coords } := by
  unfold VrmlWriter.WriteFacetToWrl
  dsimp only
  rw [if_neg]
  rw [List.length_append]
  omega

theorem wft_flush (w : WState) (coords : List Point)
    (h : 3000 ≤ w.pending.length + coords.length) :
    VrmlWriter.WriteFacetToWrl w coords =
      { VrmlWriter.WriteFacetsToWrl { w with pending := w.pending ++ coords }
          (w.pending ++ coords) with pending := [] } := by
  unfold VrmlWriter.WriteFacetToWrl
  dsimp only
  rw [if_pos]
  rw [List.length_append]
  omega

theorem wft_pending (w : WState) (coords : List Point) :
    (VrmlWriter.WriteFacetToWrl w coords).pending =
      if 3000 ≤ w.pending.length + coords.length then [] else w.pending ++ coords := by
  by_cases h : 3000 ≤ w.pending.length + coords.length
  · rw [wft_flush w coords h, if_pos h]
  · rw [wft_noflush w coords (by omega), if_neg h]

theorem wft_nodes (w : WState) (coords : List Point) :
    (VrmlWriter.WriteFacetToWrl w coords).nodes =
      if 3000 ≤ w.pending.length + coords.length then
        w.nodes ++ [w.pending ++ coords]
      else w.nodes := by
  by_cases h : 3000 ≤ w.pending.length + coords.length
  · rw [wft_flush w coords h, if_pos h]
    have hlen : 3000 ≤ (w.pending ++ coords).length := by rw [List.length_append]; omega
    have hdiv : 1 ≤ (w.pending ++ coords).length / 3 := by omega
    show (VrmlWriter.WriteFacetsToWrl { w with pending := w.pending ++ coords }
      (w.pending ++ coords)).nodes = _
    rw [wfs_nodes _ _ hdiv]
  · rw [wft_noflush w coords (by omega), if_neg h]

theorem wft_sumPts (w : WState) (coords : List Point) :
    sumPts (VrmlWriter.WriteFacetToWrl w coords) = sumPts w + coords.length := by
  unfold sumPts
  rw [wft_pending, wft_nodes]
  by_cases h : 3000 ≤ w.pending.length + coords.length
  · rw [if_pos h, if_pos h]
    simp only [List.map_append, List.sum_append, List.map_cons, List.map_nil,
      List.sum_cons, List.sum_nil, List.length_append, List.length_nil]
    omega
  · rw [if_neg h, if_neg h]
    rw [List.length_append]
    omega

theorem wft_pending_mod3 (w : WState) (coords : List Point) (h3 : coords.length = 3)
    (hp : w.pending.length % 3 = 0) :
    (VrmlWriter.WriteFacetToWrl w coords).pending.length % 3 = 0 ∧
      (VrmlWriter.WriteFacetToWrl w coords).pending.length < 3000 := by
  rw [wft_pending]
  by_cases h : 3000 ≤ w.pending.length + coords.length
  · rw [if_pos h]
    simp
  · rw [if_neg h, List.length_append, h3]
    constructor
    · omega
    · rw [h3] at h; omega

theorem wft_nodes_mod3 (w : WState) (coords : List Point) (h3 : coords.length = 3)
    (hn : ∀ b ∈ w.nodes, b.length % 3 = 0) (hp : w.pending.length % 3 = 0) :
    ∀ b ∈ (VrmlWriter.WriteFacetToWrl w coords).nodes, b.length % 3 = 0 := by
  rw [wft_nodes]
  by_cases h : 3000 ≤ w.pending.length + coords.length
  · rw [if_pos h]
    intro b hb
    rcases List.mem_append.mp hb with h1 | h2
    · exact hn b h1
    · simp only [List.mem_singleton] at h2
      subst h2
      rw [List.length_append, h3]
      omega
  · rw [if_neg h]
    exact hn

theorem feed_inv : ∀ (fs : List (List Point)) (w : WState), (∀ f ∈ fs, f.length = 3) →
    w.pending.length % 3 = 0 → (∀ b ∈ w.nodes, b.length % 3 = 0) →
    sumPts (feedFacets w fs) = sumPts w + 3 * fs.length ∧
    (feedFacets w fs).pending.length % 3 = 0 ∧
    (∀ b ∈ (feedFacets w fs).nodes, b.length % 3 = 0) := by
  intro fs
  induction fs with
  | nil =>
    intro w _ hp hn
    exact ⟨by simp [feedFacets], hp, hn⟩
  | cons f fs ihf =>
    intro w hall hp hn
    have hf3 : f.length = 3 := hall f (by simp)
    have hall2 : ∀ g ∈ fs, g.length = 3 := fun g hg => hall g (by simp [hg])
    have hstep := wft_sumPts w f
    have hm := wft_pending_mod3 w f hf3 hp
    have hnodes := wft_nodes_mod3 w f hf3 hn hp
    show sumPts (feedFacets (VrmlWriter.WriteFacetToWrl w f) fs) = _ ∧ _ ∧ _
    obtain ⟨s1, s2, s3⟩ := ihf (VrmlWriter.WriteFacetToWrl w f) hall2 hm.1 hnodes
    refine ⟨?_, s2, s3⟩
    rw [s1, hstep, hf3]
    simp only [List.length_cons]
    ring

theorem wend_pending (w : WState) (emin emax : Point) :
    (VrmlWriter.WriteEndOfWrl w emin emax).pending = w.pending := by
  unfold VrmlWriter.WriteEndOfWrl
  by_cases h : w.pending.isEmpty <;> simp [h, wfs_pending]

theorem wend_nodes (w : WState) (emin emax : Point) (hp : w.pending.length % 3 = 0) :
    (VrmlWriter.WriteEndOfWrl w emin emax).nodes =
      if w.pending.isEmpty then w.nodes else w.nodes ++ [w.pending] := by
  unfold VrmlWriter.WriteEndOfWrl
  by_cases h : w.pending.isEmpty
  · simp [h]
  · have hne : w.pending ≠ [] := by simpa [List.isEmpty_iff] using h
    have hlen : 1 ≤ w.pending.length := List.length_pos.mpr hne
    have hdiv : 1 ≤ w.pending.length / 3 := by omega
    simp [h, wfs_nodes w w.pending hdiv]

theorem wend_totalTriples (w : WState) (emin emax : Point) (hp : w.pending.length % 3 = 0) :
    totalIndexTriples (VrmlWriter.WriteEndOfWrl w emin emax) =
      (w.nodes.map (fun b => b.length / 3)).sum + w.pending.length / 3 := by
  unfold totalIndexTriples
  rw [wend_nodes w emin emax hp]
  by_cases h : w.pending.isEmpty
  · rw [if_pos h]
    have h0 : w.pending.length = 0 := by
      simpa [List.isEmpty_iff, List.length_eq_zero] using h
    rw [h0]
    simp
  · rw [if_neg h]
    simp [List.map_append, List.sum_append]

theorem sum_div3 (ns : List (List Point)) (h : ∀ b ∈ ns, b.length % 3 = 0) :
    3 * (ns.map (fun b => b.length / 3)).sum = (ns.map List.length).sum := by
  induction ns with
  | nil => simp
  | cons b bs ihn =>
    have hb := h b (by simp)
    have hrec := ihn (fun x hx => h x (by simp [hx]))
    simp only [List.map_cons, List.sum_cons]
    rw [Nat.mul_add, hrec]
    congr 1
    omega

/-! ## Reader lemmas -/

theorem rlRest_lt (c : Nat) (cs : List Nat) :
    (((c :: cs).dropWhile (fun b => !(b == 10))).tail).length < (c :: cs).length := by
  rw [List.dropWhile_cons]
  by_cases h : (!(c == 10)) = true
  · rw [if_pos h]
    have h1 : ((cs.dropWhile (fun b => !(b == 10))).tail).length ≤
        (cs.dropWhile (fun b => !(b == 10))).length := by
      rw [List.length_tail]; omega
    have h2 : (cs.dropWhile (fun b => !(b == 10))).length ≤ cs.length :=
      (List.dropWhile_sublist _).length_le
    simp only [List.length_cons]
    omega
  · rw [if_neg h]
    simp

theorem ReadLineGo_nil_diverges : ∀ fuel, ReadLineGo fuel [] true true = none := by
  intro fuel
  induction fuel with
  | zero => rfl
  | succ a ih => exact ih

theorem ReadLineGo_irrel : ∀ (f1 f2 : Nat) (bs : List Nat) (ra : Bool),
    bs.length < f1 → bs.length < f2 →
    ReadLineGo f1 bs true ra = ReadLineGo f2 bs true ra := by
  intro f1
  induction f1 with
  | zero => intro f2 bs ra h1 h2; omega
  | succ a ih =>
    intro f2 bs ra h1 h2
    cases f2 with
    | zero => omega
    | succ b =>
      simp only [ReadLineGo]
      split
      next hcond =>
        cases bs with
        | nil =>
          simp only [List.takeWhile_nil, List.dropWhile_nil, List.tail_nil, List.isEmpty_nil,
            Bool.not_true, Bool.or_false, Bool.true_and, Bool.and_eq_true] at hcond ⊢
          obtain ⟨-, hra⟩ := hcond
          subst hra
          rw [ReadLineGo_nil_diverges a, ReadLineGo_nil_diverges b]
        | cons c cs =>
          have hlt := rlRest_lt c cs
          exact ih b _ _ (by omega) (by omega)
      next => rfl

/-! ## Claim theorems -/

set_option maxRecDepth 8000


/-- C2 is violated by the code (code bug): the two-facet ASCII input
with a blank line between its facet blocks -- a valid input, since the
format tolerates LF line endings and skips blank lines anywhere -- has
exactly two facet lines, yet its conversion succeeds with exactly one
triangle-index triple in the output: at the blank line,
`ReadFacetFromAsciiStl` receives a false line read (`File::ReadLine`
reports a bare-LF blank line as end of input when `readAny` is still
unset, simplefile.h lines 91-109) and reports the clean end of the
facet sequence, dropping the second facet. -/
theorem stl2vrml_c2 :
    ((linesOfBytes blankGapBytes).filter
        (fun t => (StringFields t).head? == some "facet")).length = 2 ∧
    (ConvertStlToWrl blankGapBytes).map (Except.map totalIndexTriples) = some (.ok 1) := by
  exact ⟨by decide, by decide⟩

/-- The `mkRat` form of addition used by the double model agrees with
rational addition. -/
theorem qAdd_eq (a b : ℚ) : qAdd a b = a + b := by
  have ha : (a.den : ℚ) ≠ 0 := by positivity
  have hb : (b.den : ℚ) ≠ 0 := by positivity
  unfold qAdd
  rw [Rat.mkRat_eq_div]
  conv_rhs => rw [← Rat.num_div_den a, ← Rat.num_div_den b]
  rw [div_add_div _ _ ha hb]
  push_cast
  ring_nf

/-- The `mkRat` form of subtraction agrees with rational subtraction. -/
theorem qSub_eq (a b : ℚ) : qSub a b = a - b := by
  have ha : (a.den : ℚ) ≠ 0 := by positivity
  have hb : (b.den : ℚ) ≠ 0 := by positivity
  unfold qSub
  rw [Rat.mkRat_eq_div]
  conv_rhs => rw [← Rat.num_div_den a, ← Rat.num_div_den b]
  rw [div_sub_div _ _ ha hb]
  push_cast
  ring_nf

/-- The `mkRat` form of halving agrees with division by two. -/
theorem qHalf_eq (a : ℚ) : qHalf a = a / 2 := by
  unfold qHalf
  rw [Rat.mkRat_eq_div]
  conv_rhs => rw [← Rat.num_div_den a]
  push_cast
  rw [div_div]

/-- The integer literal in `dblMaxQ` is `(2 ^ 53 - 1) * 2 ^ 971`. -/
theorem dblMaxQ_eq : dblMaxQ = ((((2 : Int) ^ 53 - 1) * (2 : Int) ^ 971 : Int) : ℚ) := by
  norm_num [dblMaxQ]

theorem feedFacets_append (w : WState) (xs ys : List (List Point)) :
    feedFacets w (xs ++ ys) = feedFacets (feedFacets w xs) ys := by
  induction xs generalizing w with
  | nil => rfl
  | cons x xs ihx => exact ihx (VrmlWriter.WriteFacetToWrl w x)

theorem feedRep : ∀ (n : Nat) (w : WState) (m : Nat), w.pending = List.replicate m p0 →
    m + 3 * n < 3000 →
    feedFacets w (List.replicate n tri) = { w with pending := List.replicate (m + 3 * n) p0 } := by
  intro n
  induction n with
  | zero =>
    intro w m hw hm
    cases w with
    | mk out pending nodes =>
      simp only at hw
      simp [feedFacets, List.replicate, hw]
  | succ n ihn =>
    intro w m hw hm
    have hlen : w.pending.length = m := by rw [hw]; simp
    have htri : tri.length = 3 := rfl
    show feedFacets (VrmlWriter.WriteFacetToWrl w tri) (List.replicate n tri) = _
    have hnf := wft_noflush w tri (by rw [hlen, htri]; omega)
    rw [hnf]
    have hpend2 : ({ w with pending := w.pending ++ tri } : WState).pending =
        List.replicate (m + 3) p0 := by
      show w.pending ++ tri = _
      rw [hw, List.replicate_add]
      rfl
    rw [ihn { w with pending := w.pending ++ tri } (m + 3) hpend2 (by omega)]
    have harith : m + 3 + 3 * n = m + 3 * (n + 1) := by ring
    rw [harith]

/-- C5: feeding 1000 triangles (3000 points) produces exactly one flush,
of exactly 3000 points, and leaves the pending batch empty; feeding one
further point leaves one flush of 3000 points and exactly 1 pending
point. -/
theorem stl2vrml_c5 :
    ((feedFacets initWState (List.replicate 1000 tri)).nodes.map List.length = [3000] ∧
     (feedFacets initWState (List.replicate 1000 tri)).pending = []) ∧
    ((VrmlWriter.WriteFacetToWrl (feedFacets initWState (List.replicate 1000 tri))
        [p0]).nodes.map List.length = [3000] ∧
     (VrmlWriter.WriteFacetToWrl (feedFacets initWState (List.replicate 1000 tri))
        [p0]).pending.length = 1) := by
  have hsplit : List.replicate 1000 tri = List.replicate 999 tri ++ [tri] := by
    have h1 : (1000 : Nat) = 999 + 1 := rfl
    rw [h1, List.replicate_add]
    rfl
  have h999 := feedRep 999 initWState 0 rfl (by omega)
  have hfeed : feedFacets initWState (List.replicate 1000 tri) =
      VrmlWriter.WriteFacetToWrl { initWState with pending := List.replicate (0 + 3 * 999) p0 } tri := by
    rw [hsplit, feedFacets_append, h999]
    rfl
  have hplen : ({ initWState with pending := List.replicate (0 + 3 * 999) p0 } : WState).pending.length
      = 2997 := by
    show (List.replicate (0 + 3 * 999) p0).length = 2997
    rw [List.length_replicate]
  have htri : tri.length = 3 := rfl
  have hcond : 3000 ≤ ({ initWState with pending := List.replicate (0 + 3 * 999) p0 } : WState).pending.length + tri.length := by
    rw [hplen, htri]
  have hpend : (feedFacets initWState (List.replicate 1000 tri)).pending = [] := by
    rw [hfeed, wft_pending, if_pos hcond]
  have hbatch : ({ initWState with pending := List.replicate (0 + 3 * 999) p0 } : WState).pending
      ++ tri = List.replicate 3000 p0 := by
    show List.replicate (0 + 3 * 999) p0 ++ tri = _
    have htri3 : tri = List.replicate 3 p0 := rfl
    rw [htri3, ← List.replicate_add]
  have hnodes : (feedFacets initWState (List.replicate 1000 tri)).nodes =
      [List.replicate 3000 p0] := by
    rw [hfeed, wft_nodes, if_pos hcond]
    rw [hbatch]
    rfl
  refine ⟨⟨by rw [hnodes, List.map_cons, List.map_nil, List.length_replicate], hpend⟩, ?_, ?_⟩
  · rw [wft_nodes]
    rw [if_neg (by rw [hpend]; simp)]
    rw [hnodes, List.map_cons, List.map_nil, List.length_replicate]
  · rw [wft_pending]
    rw [if_neg (by rw [hpend]; simp)]
    rw [hpend]
    rfl

/-- C4 (amended): a flush triggered by reaching the 3000-point
threshold in `WriteFacetToWrl` leaves the pending batch empty; the
flush performed by the end call leaves the pending batch unchanged --
it is not cleared there (though it is never used again). -/
theorem stl2vrml_c4 (w : WState) (coords : List Point) (emin emax : Point) :
    (3000 ≤ w.pending.length + coords.length →
      (VrmlWriter.WriteFacetToWrl w coords).pending = []) ∧
    (VrmlWriter.WriteEndOfWrl w emin emax).pending = w.pending := by
  constructor
  · intro h
    rw [wft_pending, if_pos h]
  · exact wend_pending w emin emax

/-- Counterexample for C4 as stated: after feeding one triangle and
calling the end function, a flush has happened (one geometry node was
emitted) yet the pending batch still holds the three points -- it was
not cleared. -/
theorem stl2vrml_c4_cx :
    (VrmlWriter.WriteEndOfWrl (VrmlWriter.WriteFacetToWrl initWState tri) p0 p0).nodes.length = 1 ∧
    (VrmlWriter.WriteEndOfWrl (VrmlWriter.WriteFacetToWrl initWState tri) p0 p0).pending = tri ∧
    (VrmlWriter.WriteEndOfWrl (VrmlWriter.WriteFacetToWrl initWState tri) p0 p0).pending ≠ [] := by
  refine ⟨by decide, by decide, by decide⟩

/-- Witness for C4's amended statement at a concrete state: a
threshold-triggered flush empties the batch, and the end call leaves a
batch unchanged. -/
theorem stl2vrml_c4_witness :
    (VrmlWriter.WriteFacetToWrl ⟨[], List.replicate 2997 p0, []⟩ tri).pending = [] ∧
    (VrmlWriter.WriteEndOfWrl ⟨[], [p0], []⟩ p0 p0).pending = [p0] :=
  ⟨(stl2vrml_c4 ⟨[], List.replicate 2997 p0, []⟩ tri p0 p0).1
      (by rw [List.length_replicate]; rfl),
   (stl2vrml_c4 ⟨[], [p0], []⟩ tri p0 p0).2⟩

theorem feed_pending_inv : ∀ (fs : List (List Point)) (w : WState),
    (∀ f ∈ fs, f.length = 3) → w.pending.length % 3 = 0 → w.pending.length < 3000 →
    (feedFacets w fs).pending.length % 3 = 0 ∧ (feedFacets w fs).pending.length < 3000 := by
  intro fs
  induction fs with
  | nil => intro w _ hp hlt; exact ⟨hp, hlt⟩
  | cons f fs ihf =>
    intro w hall hp hlt
    have h3 := hall f (by simp)
    have hstep := wft_pending_mod3 w f h3 hp
    exact ihf (VrmlWriter.WriteFacetToWrl w f) (fun g hg => hall g (by simp [hg]))
      hstep.1 hstep.2

/-- C10: provided every feed call supplies exactly 3 points, the
pending-buffer size stays a multiple of 3 and is strictly below 3000
after every feed call: the invariant holds of the fresh writer, is
preserved by each call, and therefore holds along every run. -/
theorem stl2vrml_c10 :
    initWState.pending.length % 3 = 0 ∧
    (∀ (w : WState) (coords : List Point), coords.length = 3 → w.pending.length % 3 = 0 →
      (VrmlWriter.WriteFacetToWrl w coords).pending.length % 3 = 0 ∧
      (VrmlWriter.WriteFacetToWrl w coords).pending.length < 3000) ∧
    (∀ fs : List (List Point), (∀ f ∈ fs, f.length = 3) →
      (feedFacets initWState fs).pending.length % 3 = 0 ∧
      (feedFacets initWState fs).pending.length < 3000) := by
  refine ⟨rfl, fun w coords h3 hp => wft_pending_mod3 w coords h3 hp, fun fs hall => ?_⟩
  exact feed_pending_inv fs initWState hall rfl (by decide)

/-- Witness for C10 at a concrete call: feeding one triangle to the
fresh writer keeps the buffer a multiple of 3 and below 3000 points. -/
theorem stl2vrml_c10_witness :
    (VrmlWriter.WriteFacetToWrl initWState tri).pending.length % 3 = 0 ∧
    (VrmlWriter.WriteFacetToWrl initWState tri).pending.length < 3000 :=
  stl2vrml_c10.2.1 initWState tri (by decide) (by decide)

/-- C3 is violated by the code (code bug): when the input ends right
after a "facet" line, `ReadFacetFromAsciiStl` reports the clean end of
the facet sequence (`ok none`) instead of raising the unexpected
end-of-file format error, and reading all facets of such a truncated
input succeeds with an empty facet list. -/
theorem stl2vrml_c3 :
    StlReader.ReadFacetFromAsciiStl facetOnlyBytes = some (.ok none) ∧
    ReadAllFacets (RState.ascii facetOnlyBytes) = some (.ok []) := by
  exact ⟨by decide, by decide⟩

/-- C7 (amended): the non-empty tokens produced by `StringFields` are
exactly the ordered maximal runs of non-separator characters (the
spec's tokenizer contract), and the spec's three examples hold; empty
tokens can additionally appear, for consecutive commas/semicolons or
trailing separators. -/
theorem stl2vrml_c7 :
    (∀ s : String, (StringFields s).filter (fun t => !(t == "")) = SpecTokens s) ∧
    StringFields "1.0, 2.0;3.0" = ["1.0", "2.0", "3.0"] ∧
    StringFields "  a  b" = ["a", "b"] ∧
    StringFields "" = [] := by
  refine ⟨fun s => sf_filter_spec_aux s.data.length s.data le_rfl, by decide, by decide, rfl⟩

/-- Counterexample for C7 as stated: on input "a " the tokenizer
returns an empty token, so its output is not the sequence of non-empty
maximal runs. -/
theorem stl2vrml_c7_cx :
    StringFields "a " = ["a", ""] ∧ "" ∈ StringFields "a " ∧
    StringFields "a " ≠ SpecTokens "a " := by
  refine ⟨by decide, by decide, by decide⟩

/-- C8 is violated by the code (code bug): converting the one-facet
ASCII input succeeds, and the generated VRML text contains a line feed
not preceded by a carriage return -- the Viewpoint `position` line is
written with a bare "\n" (stl2vrml.cpp line 170) while every other
line ends in CRLF. -/
theorem stl2vrml_c8 :
    (ConvertStlToWrl demoAsciiBytes).map
      (Except.map (fun w => crlfOnly (outText w).data)) = some (.ok false) := by
  decide

theorem isBinaryStl_iff (bytes : List Nat) :
    StlReader.IsBinaryStl bytes = true ↔
      (80 + 4 ≤ bytes.length ∧ 1 ≤ leU32 ((bytes.drop 80).take 4) ∧
        bytes.length = 84 + 50 * leU32 ((bytes.drop 80).take 4)) := by
  unfold StlReader.IsBinaryStl StlReader.ReadHeaderFromBinaryStl ReadBytes
  by_cases hlen : 80 + 4 ≤ bytes.length
  · rw [if_pos hlen]
    dsimp only
    by_cases hf : leU32 ((bytes.drop 80).take 4) < 1
    · rw [if_pos hf]
      dsimp only
      constructor
      · intro hc; cases hc
      · rintro ⟨-, h1, -⟩; omega
    · rw [if_neg hf]
      dsimp only
      rw [if_neg hf]
      rw [beq_iff_eq]
      constructor
      · intro he; exact ⟨hlen, by omega, by omega⟩
      · rintro ⟨-, -, he⟩; omega
  · rw [if_neg hlen]
    dsimp only
    constructor
    · intro hc; cases hc
    · rintro ⟨h1, -⟩; exact absurd h1 hlen

/-- C1 is violated by the code (code bug) on its ASCII-fallback part,
while its binary-detection part holds: the reader classifies an input
as binary exactly when reading the 80-byte preamble plus the 4-byte
little-endian facet count succeeds (the file has at least 84 bytes),
the count is at least 1, and the file length is exactly
`84 + 50 * count`.  But on the input that starts with one bare
line-feed blank line -- not binary, and whose first non-blank line is
"solid demo", with first token "solid" -- the ASCII fallback raises the
bad-STL format error instead of accepting the header: `File::ReadLine`
returns false at the leading blank line (its `readAny` flag is only set
by bytes other than the line feed, simplefile.h lines 91-109), so the
blank line is reported as end of input rather than skipped. -/
theorem stl2vrml_c1 :
    (∀ bytes : List Nat, StlReader.IsBinaryStl bytes = true ↔
      (80 + 4 ≤ bytes.length ∧ 1 ≤ leU32 ((bytes.drop 80).take 4) ∧
        bytes.length = 84 + 50 * leU32 ((bytes.drop 80).take 4))) ∧
    StlReader.IsBinaryStl leadingBlankBytes = false ∧
    ((linesOfBytes leadingBlankBytes).dropWhile (fun t => t == "")).head? =
      some "solid demo" ∧
    (StringFields "solid demo").head? = some "solid" ∧
    StlReader.ReadHeaderFromStl leadingBlankBytes =
      some (.error "File does not appear to be in STL format.\r\n") := by
  exact ⟨isBinaryStl_iff, by decide, by decide, by decide, by decide⟩

/-- C6: parsing a vertex line raises the invalid-coordinate format
error whenever a parsed value is exactly 0 while its token's first
character is not the literal character '0', or a parsed value is NaN or
not finite; in particular "vertex 1.0 abc 3.0" raises that error. -/
theorem stl2vrml_c6 :
    (∀ (bs : List Nat) (text : String) (rest : List Nat)
        (f0 f1 f2 f3 : String) (fs : List String),
      ReadLine bs = some (true, text, rest) →
      StringFields text = f0 :: f1 :: f2 :: f3 :: fs →
      f0 = "vertex" →
      ((D.eqZero (atof f1) = true ∧ firstChar f1 ≠ '0') ∨
       (D.eqZero (atof f2) = true ∧ firstChar f2 ≠ '0') ∨
       (D.eqZero (atof f3) = true ∧ firstChar f3 ≠ '0') ∨
       D.isNanB (atof f1) = true ∨ D.isNanB (atof f2) = true ∨ D.isNanB (atof f3) = true ∨
       D.isFiniteB (atof f1) = false ∨ D.isFiniteB (atof f2) = false ∨
       D.isFiniteB (atof f3) = false) →
      StlReader.ReadVertexFromAsciiStl bs =
        some (.error "One or more invalid coordinate values after \"vertex\".\n")) ∧
    StlReader.ReadVertexFromAsciiStl vertexBadBytes =
      some (.error "One or more invalid coordinate values after \"vertex\".\n") := by
  constructor
  · intro bs text rest f0 f1 f2 f3 fs hrl hsf hf0 hbad
    unfold StlReader.ReadVertexFromAsciiStl
    rw [hrl]
    dsimp only
    rw [hsf]
    dsimp only
    subst hf0
    rw [if_pos (by rfl)]
    have hcond : ((D.eqZero (atof f1) && !(firstChar f1 == '0')) ||
        (D.eqZero (atof f2) && !(firstChar f2 == '0')) ||
        (D.eqZero (atof f3) && !(firstChar f3 == '0')) ||
        D.isNanB (atof f1) || D.isNanB (atof f2) || D.isNanB (atof f3) ||
        !(D.isFiniteB (atof f1)) || !(D.isFiniteB (atof f2)) ||
        !(D.isFiniteB (atof f3))) = true := by
      rcases hbad with ⟨hz, hc⟩ | ⟨hz, hc⟩ | ⟨hz, hc⟩ | hn | hn | hn | hf | hf | hf
      · simp [hz, beq_eq_false_iff_ne.mpr hc]
      · simp [hz, beq_eq_false_iff_ne.mpr hc]
      · simp [hz, beq_eq_false_iff_ne.mpr hc]
      · simp [hn]
      · simp [hn]
      · simp [hn]
      · simp [hf]
      · simp [hf]
      · simp [hf]
    rw [if_pos hcond]
  · decide

/-- Witness for C6: applying the general statement at the concrete line
"vertex 1.0 abc 3.0", whose middle token parses to exactly 0 while
starting with 'a'. -/
theorem stl2vrml_c6_witness :
    StlReader.ReadVertexFromAsciiStl vertexBadBytes =
      some (.error "One or more invalid coordinate values after \"vertex\".\n") :=
  stl2vrml_c6.1 vertexBadBytes "vertex 1.0 abc 3.0" [] "vertex" "1.0" "abc" "3.0" []
    (by decide) (by decide) rfl (Or.inr (Or.inl ⟨by decide, by decide⟩))

/-- C9: reading one binary facet raises a format error exactly when a
facet is still due and either the 50-byte record cannot be fully read
or its 16-bit attribute field is nonzero; when the record reads and the
attribute is zero, the facet is accepted and its nine vertex floats
(floats 3 to 11 of the record) are returned as three points with no
validation of the float values -- NaN or infinite coordinates included. -/
theorem stl2vrml_c9 (bytes : List Nat) (pos cur total : Nat) :
    ((∃ e, StlReader.ReadFacetFromBinaryStl bytes pos cur total = .error e) ↔
      (cur < total ∧ (bytes.length < pos + 50 ∨
        leU16 (((bytes.drop pos).take 50).drop 48) ≠ 0))) ∧
    (cur < total → pos + 50 ≤ bytes.length →
      leU16 (((bytes.drop pos).take 50).drop 48) = 0 →
      StlReader.ReadFacetFromBinaryStl bytes pos cur total =
        .ok (some ([⟨recFloat bytes pos 3, recFloat bytes pos 4, recFloat bytes pos 5⟩,
                    ⟨recFloat bytes pos 6, recFloat bytes pos 7, recFloat bytes pos 8⟩,
                    ⟨recFloat bytes pos 9, recFloat bytes pos 10, recFloat bytes pos 11⟩],
          RState.binary bytes (pos + 50) (cur + 1) total))) := by
  unfold StlReader.ReadFacetFromBinaryStl ReadBytes
  by_cases hc : total ≤ cur
  · rw [if_pos hc]
    constructor
    · constructor
      · rintro ⟨e, he⟩; cases he
      · rintro ⟨h1, -⟩; omega
    · intro h1; omega
  · rw [if_neg hc]
    by_cases hlen : pos + 50 ≤ bytes.length
    · rw [if_pos hlen]
      dsimp only
      by_cases hat : leU16 (((bytes.drop pos).take 50).drop 48) ≠ 0
      · rw [if_pos hat]
        constructor
        · constructor
          · intro _; exact ⟨by omega, Or.inr hat⟩
          · intro _; exact ⟨_, rfl⟩
        · intro _ _ h0; exact absurd h0 hat
      · rw [if_neg hat]
        constructor
        · constructor
          · rintro ⟨e, he⟩; cases he
          · rintro ⟨-, hor⟩
            rcases hor with h1 | h2
            · omega
            · exact absurd h2 hat
        · intro _ _ _; rfl
    · rw [if_neg hlen]
      constructor
      · constructor
        · intro _; exact ⟨by omega, Or.inl (by omega)⟩
        · intro _; exact ⟨_, rfl⟩
      · intro _ h2 _; omega

/-- Witness for C9: a record whose first vertex float is an IEEE NaN is
accepted, and the NaN is passed through as the point's x coordinate. -/
theorem stl2vrml_c9_witness :
    StlReader.ReadFacetFromBinaryStl nanRecBytes 0 0 1 =
      .ok (some ([⟨D.nan, D.fin 0, D.fin 0⟩, ⟨D.fin 0, D.fin 0, D.fin 0⟩,
                  ⟨D.fin 0, D.fin 0, D.fin 0⟩],
        RState.binary nanRecBytes 50 1 1)) := by
  have h := (stl2vrml_c9 nanRecBytes 0 0 1).2 (by decide) (by decide) (by decide)
  rw [h]
  decide
